import Mathlib

/-!
Verification development for the fetch/cache/dedup pipeline of the
`simple_ai_news_scraper` repository (src/database.py, src/request_handler.py,
src/scraper.py).

The embedding is shallow: each Python method is translated into a pure Lean
function over explicit state.  Timestamps are modelled as `Int` seconds
(the source stores database timestamps as `'%Y-%m-%d %H:%M:%S'` strings,
whose lexicographic SQL comparison agrees with chronological order, and file
modification times as POSIX seconds).  The MD5 digest of a URL is modelled
by an abstract digest function carried in the environment.  External
collaborators (the network, the HTML extractor) are oracles in the
environment, matching the spec's component boundaries.
-/

set_option maxHeartbeats 1000000

/-- A row of the `request_cache` table: url, response body and timestamp
(the `headers` column is never populated by `Database.save_to_cache`). -/
structure DbCacheRow where
  url : String
  response : String
  timestamp : Int
deriving DecidableEq, Repr

/-- A row of the `articles` table (the surrogate `id` column is not modelled;
identity of a row is its unique `url`). -/
structure ArticleRow where
  title : String
  content : String
  url : String
  published_date : String
  source : String
  scrape_date : String
  keywords : String
deriving DecidableEq, Repr

/-- An article dict passed to `Database.save_articles`.  `title` is `Option`
because binding Python `None` into the `title TEXT NOT NULL` column is the
per-row failure path; `keywords` is `Option` because the source explicitly
defaults a missing/None value to the empty string. -/
structure ArticleInput where
  title : Option String
  content : String
  url : String
  published_date : String
  source : String
  scrape_date : String
  keywords : Option String
deriving DecidableEq, Repr

/-- A link discovered on a listing page by `ContentExtractor.extract_article_links`. -/
structure Link where
  url : String
  title : String
deriving DecidableEq, Repr

/-- State of the SQLite database file: the two tables created by
`Database.setup_database`, the set of table names present, and the
`conn` instance attribute (which `Database.__init__` never assigns). -/
structure DbState where
  articles : List ArticleRow
  requestCache : List (String × DbCacheRow)
  tables : List String
  conn : Option Unit
deriving DecidableEq, Repr

/-- Replace-on-conflict write into an association list (SQLite
`INSERT OR REPLACE` keyed by the primary key). -/
def assocPut (k : String) (v : α) (l : List (String × α)) : List (String × α) :=
  (k, v) :: l.filter (fun e => e.1 ≠ k)

namespace Database

/-- `Database.setup_database`: `CREATE TABLE IF NOT EXISTS` for `articles`
and `request_cache`; existing rows are untouched. -/
def setup_database (db : DbState) : DbState :=
  let t1 := if db.tables.contains "articles" then db.tables else db.tables ++ ["articles"]
  let t2 := if t1.contains "request_cache" then t1 else t1 ++ ["request_cache"]
  { db with tables := t2 }

/-- `Database.__init__`: records the path (not modelled) and runs
`setup_database`; it never assigns a `conn` attribute, so `conn := none`. -/
def init (articles0 : List ArticleRow) (requestCache0 : List (String × DbCacheRow))
    (tables0 : List String) : DbState :=
  setup_database { articles := articles0, requestCache := requestCache0,
                   tables := tables0, conn := none }

/-- `Database.get_existing_urls`: `SELECT url FROM articles`. -/
def get_existing_urls (db : DbState) : List String :=
  db.articles.map (fun r => r.url)

/-- `Database.get_cached_response`: `SELECT response, timestamp FROM
request_cache WHERE url_hash = ?`. -/
def get_cached_response (db : DbState) (url_hash : String) : Option (String × Int) :=
  (db.requestCache.lookup url_hash).map (fun r => (r.response, r.timestamp))

/-- `Database.save_to_cache`: `INSERT OR REPLACE INTO request_cache
(url_hash, url, response, timestamp)`. -/
def save_to_cache (db : DbState) (url_hash url content : String) (timestamp : Int) :
    DbState :=
  { db with requestCache :=
      assocPut url_hash ⟨url, content, timestamp⟩ db.requestCache }

/-- The row written for an article whose `title` bound successfully;
a `None` keywords value is defaulted to the empty string, as in the source. -/
def mkRow (t : String) (a : ArticleInput) : ArticleRow :=
  { title := t, content := a.content, url := a.url,
    published_date := a.published_date, source := a.source,
    scrape_date := a.scrape_date, keywords := a.keywords.getD "" }

/-- One `INSERT ... ON CONFLICT(url) DO UPDATE SET ...` statement.
`none` is the per-row failure (NULL into the NOT NULL `title` column raises,
is caught, logged and skipped).  On conflict every mutable field of the
existing row is updated in place; otherwise a new row is appended. -/
def upsertRow (table : List ArticleRow) (a : ArticleInput) :
    Option (List ArticleRow) :=
  match a.title with
  | none => none
  | some t =>
    if table.any (fun r => r.url == a.url) then
      some (table.map (fun r => if r.url == a.url then mkRow t a else r))
    else
      some (table ++ [mkRow t a])

/-- `Database.save_articles`: per-article upsert inside one transaction;
a failing row is skipped without aborting the batch; `saved_count` is
incremented exactly when `cursor.rowcount > 0`, i.e. on every row actually
inserted or updated.  Returns `(saved_count, new state)`. -/
def saveStep (acc : Nat × List ArticleRow) (a : ArticleInput) :
    Nat × List ArticleRow :=
  match upsertRow acc.2 a with
  | some t => (acc.1 + 1, t)
  | none => acc

def save_articles (db : DbState) (articles : List ArticleInput) : Nat × DbState :=
  let out := articles.foldl saveStep (0, db.articles)
  (out.1, { db with articles := out.2 })

/-- `Database.clear_old_cache(hours)`: `DELETE FROM request_cache WHERE
timestamp < now - hours` (an `hours`-hour cutoff, i.e. `hours * 3600`
seconds); returns `(rowcount, new state)`. -/
def clear_old_cache (db : DbState) (hours now : Int) : Nat × DbState :=
  let cutoff := now - hours * 3600
  let kept := db.requestCache.filter (fun e => !(decide (e.2.timestamp < cutoff)))
  let cleared := db.requestCache.length - kept.length
  (cleared, { db with requestCache := kept })

/-- `Database.clear_all_cache`: `DELETE FROM request_cache`. -/
def clear_all_cache (db : DbState) : Nat × DbState :=
  (db.requestCache.length, { db with requestCache := [] })

/-- `Database.reset_visited_urls`: executes `DELETE FROM cache` through
`self.conn`.  The attribute `conn` was never created by `__init__`, so the
access raises `AttributeError`; even with a connection, no table named
`cache` exists in the schema, so the statement would raise.  Either way the
`except` branch returns `False` and no table is modified. -/
def reset_visited_urls (db : DbState) : Bool × DbState :=
  match db.conn with
  | none => (false, db)
  | some _ =>
    if db.tables.contains "cache" then
      (true, db)
    else
      (false, db)

end Database

/-- Environment of external collaborators: the network (url to response body
on HTTP success, `none` on error status or transport failure), the two
Extractor operations, and the URL digest (MD5 in the source). -/
structure Env where
  net : String → Option String
  extractLinks : String → List Link
  extractData : String → String → Option String → Option ArticleInput
  hash : String → String

/-- Mutable state threaded through `RequestHandler` and `AINewsScraper`:
the file cache tier (digest to content and mtime), the database state and
the visited-URL set. -/
structure ScraperState where
  fileCache : List (String × String × Int)
  db : DbState
  visited : List String
deriving DecidableEq, Repr

/-- Result of one `RequestHandler.get_page_content` call: the returned
value, the successor state, and the list of URLs for which a network GET
was issued during the call. -/
structure FetchOut where
  result : Option String
  st : ScraperState
  netLog : List String
deriving DecidableEq, Repr

namespace RequestHandler

/-- `RequestHandler.get_cached_response`: check the file tier first and
return its content when the entry is younger than 24 hours; otherwise fall
back to the database tier under the same strict 24-hour staleness rule;
a stale or absent entry in both tiers yields `none`. -/
def get_cached_response (env : Env) (st : ScraperState) (url : String) (now : Int) :
    Option String :=
  let url_hash := env.hash url
  let fileHit : Option String :=
    match st.fileCache.lookup url_hash with
    | some (content, mtime) => if now - mtime < 86400 then some content else none
    | none => none
  match fileHit with
  | some c => some c
  | none =>
    match Database.get_cached_response st.db url_hash with
    | some (resp, ts) => if now - ts < 86400 then some resp else none
    | none => none

/-- `RequestHandler.save_to_cache`: write-through to both tiers with the
current timestamp. -/
def save_to_cache (env : Env) (st : ScraperState) (url content : String) (now : Int) :
    ScraperState :=
  let url_hash := env.hash url
  { st with
    fileCache := assocPut url_hash (content, now) st.fileCache,
    db := Database.save_to_cache st.db url_hash url content now }

/-- `RequestHandler.get_page_content`: return `None` for a URL already in
the visited set; otherwise consult the cache — a truthy (non-empty) cached
value is returned without touching the network; otherwise issue one GET,
and on success write the body through both cache tiers before returning it.
The `netLog` records the URL exactly when a network request was issued. -/
def get_page_content (env : Env) (st : ScraperState) (url : String) (now : Int) :
    FetchOut :=
  if st.visited.contains url then
    ⟨none, st, []⟩
  else
    match get_cached_response env st url now with
    | some c =>
      if c ≠ "" then ⟨some c, st, []⟩
      else
        match env.net url with
        | some body => ⟨some body, save_to_cache env st url body now, [url]⟩
        | none => ⟨none, st, [url]⟩
    | none =>
      match env.net url with
      | some body => ⟨some body, save_to_cache env st url body now, [url]⟩
      | none => ⟨none, st, [url]⟩

/-- `RequestHandler.clear_old_file_cache(days)`: remove every file whose
mtime is older than `days * 86400` seconds; returns `(count, new tier)`. -/
def clear_old_file_cache (fileCache : List (String × String × Int))
    (days now : Int) : Nat × List (String × String × Int) :=
  let cutoff := now - days * 86400
  let kept := fileCache.filter (fun e => !(decide (e.2.2 < cutoff)))
  (fileCache.length - kept.length, kept)

end RequestHandler

/-- The retry policy configured by `RequestHandler.create_session`. -/
structure RetryConfig where
  total : Nat
  backoff_factor : Nat
  status_forcelist : List Nat
  allowed_methods : List String
deriving DecidableEq, Repr

/-- The literal `Retry(...)` arguments from `RequestHandler.create_session`. -/
def retry_strategy : RetryConfig :=
  { total := 3, backoff_factor := 1,
    status_forcelist := [429, 500, 502, 503, 504],
    allowed_methods := ["GET"] }

/-- Whether the adapter retries a response: the status must be in the
forcelist and the method in the allowed set. -/
def shouldRetry (cfg : RetryConfig) (method : String) (status : Nat) : Bool :=
  cfg.status_forcelist.contains status && cfg.allowed_methods.contains method

/-- Outcome of one session-level GET: total attempts issued, the backoff
delays slept before each retry, and the final result. -/
inductive FetchResult where
  | success
  | fetchError
deriving DecidableEq, Repr

structure SessionOut where
  attempts : Nat
  backoffs : List Nat
  result : FetchResult
deriving DecidableEq, Repr

/-- Modelled from the spec: the retry loop of the HTTP adapter stack that
`RequestHandler.create_session` configures is library code not present under
src/.  Per the spec it retries up to `cfg.total` times with exponential
backoff starting at `cfg.backoff_factor` time-units, and a retry is
triggered only when the response status is in `cfg.status_forcelist` and
the method is in `cfg.allowed_methods`; a non-retried error status surfaces
as a fetch failure (`raise_for_status`).  `server n` is the status code the
origin answers to the `n`-th attempt (0-based); `retriesLeft` starts at
`cfg.total`. -/
def retryLoop (cfg : RetryConfig) (method : String) (server : Nat → Nat) :
    Nat → Nat → SessionOut
  | 0, attempt =>
    let status := server attempt
    if shouldRetry cfg method status then ⟨attempt + 1, [], .fetchError⟩
    else ⟨attempt + 1, [], if status < 400 then .success else .fetchError⟩
  | r + 1, attempt =>
    let status := server attempt
    if shouldRetry cfg method status then
      let rest := retryLoop cfg method server r (attempt + 1)
      ⟨rest.attempts, cfg.backoff_factor * 2 ^ attempt :: rest.backoffs, rest.result⟩
    else ⟨attempt + 1, [], if status < 400 then .success else .fetchError⟩

/-- One GET through the session created by `RequestHandler.create_session`. -/
def sessionGet (cfg : RetryConfig) (server : Nat → Nat) : SessionOut :=
  retryLoop cfg "GET" server cfg.total 0

namespace AINewsScraper

/-- The listing URL built for a page of the Khaleej Times search, with the
search term's spaces percent-encoded (`str.replace(' ', '%20')`). -/
def pct20 (s : String) : String :=
  ⟨s.data.foldr (fun c acc => if c = ' ' then '%' :: '2' :: '0' :: acc else c :: acc) []⟩

def listingUrl (searchTerm : String) (page : Nat) : String :=
  let base := "https://www.khaleejtimes.com/search"
  if page = 1 then base ++ "?q=" ++ pct20 searchTerm
  else base ++ "?q=" ++ pct20 searchTerm ++ "&page=" ++ toString page

/-- `AINewsScraper.scrape_article_content`: fetch the article page (through
the visited-set guard and the cache), on a truthy body add the URL to the
visited set and hand the HTML to the Extractor. -/
def scrape_article_content (env : Env) (st : ScraperState) (url : String)
    (fallback_title : Option String) (now : Int) :
    Option ArticleInput × ScraperState × List String :=
  let f := RequestHandler.get_page_content env st url now
  match f.result with
  | none => (none, f.st, f.netLog)
  | some html =>
    if html = "" then (none, f.st, f.netLog)
    else
      let st' := { f.st with visited := url :: f.st.visited }
      (env.extractData url html fallback_title, st', f.netLog)

/-- Result of the per-page article loop: successor state, accumulated
article dicts, the page's `processed_count`, and the network log. -/
structure LinksOut where
  st : ScraperState
  acc : List ArticleInput
  processed : Nat
  netLog : List String
deriving DecidableEq, Repr

/-- The inner `for article in articles` loop of
`AINewsScraper.scrape_khaleejtimes_ai`: stop at the per-page cap, skip
links already visited, otherwise fetch and extract, and count each article
that yielded data. -/
def processLinks (env : Env) (now : Int) (cap : Nat) :
    List Link → ScraperState → List ArticleInput → Nat → LinksOut
  | [], st, acc, processed => ⟨st, acc, processed, []⟩
  | l :: rest, st, acc, processed =>
    if cap ≤ processed then ⟨st, acc, processed, []⟩
    else if st.visited.contains l.url then
      processLinks env now cap rest st acc processed
    else
      let (data?, st', log) := scrape_article_content env st l.url (some l.title) now
      match data? with
      | some d =>
        let out := processLinks env now cap rest st' (acc ++ [d]) (processed + 1)
        ⟨out.st, out.acc, out.processed, log ++ out.netLog⟩
      | none =>
        let out := processLinks env now cap rest st' acc processed
        ⟨out.st, out.acc, out.processed, log ++ out.netLog⟩

/-- Result of the page loop: successor state, accumulated article dicts,
network log, and the page numbers whose loop body ran (i.e. whose listing
URL fetch was attempted). -/
structure CrawlOut where
  st : ScraperState
  acc : List ArticleInput
  netLog : List String
  attempted : List Nat
deriving DecidableEq, Repr

/-- The `for page in range(1, pages + 1)` loop of
`AINewsScraper.scrape_khaleejtimes_ai`.  A falsy listing body, an empty
link list, or (not modelled) an exception `continue`s to the next page;
a page whose `processed_count` ended at zero `break`s the whole crawl. -/
def crawlPages (env : Env) (term : String) (now : Int) (cap : Nat) :
    List Nat → ScraperState → List ArticleInput → CrawlOut
  | [], st, acc => ⟨st, acc, [], []⟩
  | p :: rest, st, acc =>
    let f := RequestHandler.get_page_content env st (listingUrl term p) now
    match f.result with
    | none =>
      let out := crawlPages env term now cap rest f.st acc
      ⟨out.st, out.acc, f.netLog ++ out.netLog, p :: out.attempted⟩
    | some html =>
      if html = "" then
        let out := crawlPages env term now cap rest f.st acc
        ⟨out.st, out.acc, f.netLog ++ out.netLog, p :: out.attempted⟩
      else
        match env.extractLinks html with
        | [] =>
          let out := crawlPages env term now cap rest f.st acc
          ⟨out.st, out.acc, f.netLog ++ out.netLog, p :: out.attempted⟩
        | l :: ls =>
          let inner := processLinks env now cap (l :: ls) f.st acc 0
          if inner.processed = 0 then
            ⟨inner.st, inner.acc, f.netLog ++ inner.netLog, [p]⟩
          else
            let out := crawlPages env term now cap rest inner.st inner.acc
            ⟨out.st, out.acc, f.netLog ++ inner.netLog ++ out.netLog,
             p :: out.attempted⟩

/-- `AINewsScraper.scrape_khaleejtimes_ai`: crawl pages `1..pages`, then one
bulk `save_articles` over everything accumulated; returns the saved count. -/
def scrape_khaleejtimes_ai (env : Env) (st : ScraperState) (now : Int)
    (pages : Nat) (use_ai_term : Bool) (max_articles_per_page : Nat) :
    Nat × ScraperState × CrawlOut :=
  let term := if use_ai_term then "AI" else "artificial intelligence"
  let out := crawlPages env term now max_articles_per_page
    ((List.range pages).map (fun i => i + 1)) st []
  let (saved, db') := Database.save_articles out.st.db out.acc
  (saved, { out.st with db := db' }, out)

/-- `AINewsScraper.clear_old_cache(hours)`: the combined sweep forwards its
`hours` argument positionally into `clear_old_file_cache`'s `days`
parameter and into `Database.clear_old_cache`'s `hours` parameter, and
returns the sum of the two counts. -/
def clear_old_cache (st : ScraperState) (hours now : Int) : Nat × ScraperState :=
  let fileOut := RequestHandler.clear_old_file_cache st.fileCache hours now
  let dbOut := Database.clear_old_cache st.db hours now
  (fileOut.1 + dbOut.1, { st with fileCache := fileOut.2, db := dbOut.2 })

end AINewsScraper

section Helpers

lemma length_sub_filter_length (l : List α) (q : α → Bool) :
    l.length - (l.filter q).length = l.countP (fun a => !(q a)) := by
  induction l with
  | nil => rfl
  | cons a t ih =>
    have hle := List.length_filter_le q t
    cases h : q a
    · simp only [List.filter_cons, h, Bool.false_eq_true, if_false, List.length_cons,
        List.countP_cons, Bool.not_false, if_pos]
      omega
    · simp only [List.filter_cons, h, if_true, List.length_cons, List.countP_cons,
        Bool.not_true, Bool.false_eq_true, if_false, Nat.add_zero]
      omega

lemma lookup_assocPut_self (k : String) (v : α) (l : List (String × α)) :
    (assocPut k v l).lookup k = some v := by
  simp [assocPut, List.lookup]

end Helpers

/-- C8: after `Database.clear_old_cache` runs, the surviving `request_cache`
rows are exactly those whose timestamp is not older than the cutoff
`now - hours`: every entry strictly older than the cutoff is absent, every
other entry survives, and the returned count is the number of rows removed. -/
theorem clear_old_cache_eviction (db : DbState) (hours now : Int) :
    (Database.clear_old_cache db hours now).2.requestCache =
      db.requestCache.filter (fun e => !(decide (e.2.timestamp < now - hours * 3600))) ∧
    (∀ e ∈ db.requestCache, e.2.timestamp < now - hours * 3600 →
      e ∉ (Database.clear_old_cache db hours now).2.requestCache) ∧
    (∀ e ∈ db.requestCache, ¬ e.2.timestamp < now - hours * 3600 →
      e ∈ (Database.clear_old_cache db hours now).2.requestCache) ∧
    (Database.clear_old_cache db hours now).1 =
      db.requestCache.countP (fun e => decide (e.2.timestamp < now - hours * 3600)) := by
  refine ⟨rfl, ?_, ?_, ?_⟩
  · intro e he hlt hmem
    simp only [Database.clear_old_cache, List.mem_filter] at hmem
    exact absurd hlt (by simpa using hmem.2)
  · intro e he hge
    simp only [Database.clear_old_cache, List.mem_filter]
    exact ⟨he, by simpa using hge⟩
  · have h := length_sub_filter_length db.requestCache
      (fun e => !(decide (e.2.timestamp < now - hours * 3600)))
    simp only [Bool.not_not] at h
    exact h

/-- C8 witness. -/
theorem clear_old_cache_eviction_witness :
    (Database.clear_old_cache ⟨[], [("k1", ⟨"u1", "r1", 0⟩), ("k2", ⟨"u2", "r2", 7000⟩)],
        ["articles", "request_cache"], none⟩ 1 7200).2.requestCache =
      [("k2", ⟨"u2", "r2", 7000⟩)] ∧
    (Database.clear_old_cache ⟨[], [("k1", ⟨"u1", "r1", 0⟩), ("k2", ⟨"u2", "r2", 7000⟩)],
        ["articles", "request_cache"], none⟩ 1 7200).1 = 1 := by
  have h := clear_old_cache_eviction
    ⟨[], [("k1", ⟨"u1", "r1", 0⟩), ("k2", ⟨"u2", "r2", 7000⟩)],
     ["articles", "request_cache"], none⟩ 1 7200
  exact ⟨by rw [h.1]; decide, by rw [h.2.2.2]; decide⟩

/-- C9: `Database.reset_visited_urls` targets a `cache` table that the
schema (only `articles` and `request_cache` on a fresh database) does not
define, through a `conn` attribute the constructor never creates; on any
database state whose `conn` attribute is absent the call returns `False`
and leaves the state — both tables included — unchanged. -/
theorem reset_visited_urls_inconsistent (a : List ArticleRow)
    (r : List (String × DbCacheRow)) (db : DbState) (h : db.conn = none) :
    (Database.init a r []).conn = none ∧
    (Database.init a r []).tables = ["articles", "request_cache"] ∧
    ¬ "cache" ∈ (Database.init a r []).tables ∧
    Database.reset_visited_urls db = (false, db) := by
  refine ⟨rfl, rfl, ?_, ?_⟩
  · intro hm
    rw [show (Database.init a r []).tables = ["articles", "request_cache"] from rfl] at hm
    exact absurd hm (by decide)
  · simp [Database.reset_visited_urls, h]

/-- C9 witness. -/
theorem reset_visited_urls_inconsistent_witness :
    (Database.init [] [] []).conn = none ∧
    (Database.init [] [] []).tables = ["articles", "request_cache"] ∧
    ¬ "cache" ∈ (Database.init [] [] []).tables ∧
    Database.reset_visited_urls (Database.init [] [] []) =
      (false, Database.init [] [] []) :=
  reset_visited_urls_inconsistent [] [] (Database.init [] [] []) rfl

/-- C10: `AINewsScraper.clear_old_cache(hours := h)` applies different
cutoffs to the two tiers: the file tier keeps exactly the entries not older
than `h` *days* (`h * 86400` seconds, because `h` is forwarded into the
`days` parameter of `clear_old_file_cache`), the database tier keeps
exactly the entries not older than `h` *hours* (`h * 3600` seconds), and
the returned value is the sum of the two removal counts. -/
theorem clear_old_cache_unit_mismatch (st : ScraperState) (hours now : Int) :
    (AINewsScraper.clear_old_cache st hours now).2.fileCache =
      st.fileCache.filter (fun e => !(decide (e.2.2 < now - hours * 86400))) ∧
    (AINewsScraper.clear_old_cache st hours now).2.db.requestCache =
      st.db.requestCache.filter
        (fun e => !(decide (e.2.timestamp < now - hours * 3600))) ∧
    (AINewsScraper.clear_old_cache st hours now).1 =
      st.fileCache.countP (fun e => decide (e.2.2 < now - hours * 86400)) +
      st.db.requestCache.countP
        (fun e => decide (e.2.timestamp < now - hours * 3600)) := by
  refine ⟨rfl, rfl, ?_⟩
  have h1 := length_sub_filter_length st.fileCache
    (fun e => !(decide (e.2.2 < now - hours * 86400)))
  have h2 := length_sub_filter_length st.db.requestCache
    (fun e => !(decide (e.2.timestamp < now - hours * 3600)))
  simp only [Bool.not_not] at h1 h2
  show st.fileCache.length - _ + (st.db.requestCache.length - _) = _
  rw [h1, h2]

/-- C2: against an origin that answers 503 to every request, the session
configured by `RequestHandler.create_session` issues exactly
`retry_strategy.total + 1 = 4` network attempts, sleeping the exponential
backoff sequence 1, 2, 4 (starting at 1 time-unit) before the retries, and
surfaces a fetch failure; moreover a retry is triggered only by status 429
or a 5xx status, and only for the GET method. -/
theorem retry_bound_always_503 (server : Nat → Nat) (h : ∀ n, server n = 503) :
    (sessionGet retry_strategy server).attempts = retry_strategy.total + 1 ∧
    (sessionGet retry_strategy server).attempts = 4 ∧
    (sessionGet retry_strategy server).backoffs = [1, 2, 4] ∧
    (sessionGet retry_strategy server).result = FetchResult.fetchError ∧
    (∀ s, shouldRetry retry_strategy "GET" s = true →
      s = 429 ∨ (500 ≤ s ∧ s < 600)) ∧
    (∀ m s, m ≠ "GET" → shouldRetry retry_strategy m s = false) := by
  have hmain : sessionGet retry_strategy server =
      ⟨4, [1, 2, 4], FetchResult.fetchError⟩ := by
    simp [sessionGet, retry_strategy, retryLoop, h, shouldRetry]
  refine ⟨by rw [hmain]; rfl, by rw [hmain], by rw [hmain], by rw [hmain], ?_, ?_⟩
  · intro s hs
    have hmem : s ∈ retry_strategy.status_forcelist := by
      have := (Bool.and_eq_true _ _).mp hs
      simpa using this.1
    simp only [retry_strategy, List.mem_cons, List.not_mem_nil, or_false] at hmem
    rcases hmem with rfl | rfl | rfl | rfl | rfl
    · exact Or.inl rfl
    all_goals exact Or.inr (by omega)
  · intro m s hm
    have hc : (retry_strategy.allowed_methods.contains m) = false := by
      simpa [retry_strategy] using hm
    simp only [shouldRetry, hc, Bool.and_false]

/-- C2 witness. -/
theorem retry_bound_always_503_witness :
    (sessionGet retry_strategy (fun _ => 503)).attempts = retry_strategy.total + 1 ∧
    (sessionGet retry_strategy (fun _ => 503)).attempts = 4 ∧
    (sessionGet retry_strategy (fun _ => 503)).backoffs = [1, 2, 4] ∧
    (sessionGet retry_strategy (fun _ => 503)).result = FetchResult.fetchError ∧
    (∀ s, shouldRetry retry_strategy "GET" s = true →
      s = 429 ∨ (500 ≤ s ∧ s < 600)) ∧
    (∀ m s, m ≠ "GET" → shouldRetry retry_strategy m s = false) :=
  retry_bound_always_503 (fun _ => 503) (fun _ => rfl)

/-- C4: `RequestHandler.get_cached_response` checks the file tier first —
a file entry strictly younger than 24 hours is returned; any value it
returns is a tier entry strictly younger than 24 hours (file tier, or
database tier when the file tier had no fresh entry); and when neither tier
holds a fresh entry the read is a miss, so a stale entry behaves exactly
like an absent one. -/
theorem cache_staleness_rule (env : Env) (st : ScraperState) (url : String) (now : Int) :
    (∀ c t, st.fileCache.lookup (env.hash url) = some (c, t) → now - t < 86400 →
      RequestHandler.get_cached_response env st url now = some c) ∧
    (∀ c, RequestHandler.get_cached_response env st url now = some c →
      (∃ t, st.fileCache.lookup (env.hash url) = some (c, t) ∧ now - t < 86400) ∨
      ((∀ c' t, st.fileCache.lookup (env.hash url) = some (c', t) →
          ¬ now - t < 86400) ∧
       ∃ ts, Database.get_cached_response st.db (env.hash url) = some (c, ts) ∧
         now - ts < 86400)) ∧
    ((∀ c t, st.fileCache.lookup (env.hash url) = some (c, t) → ¬ now - t < 86400) →
     (∀ c ts, Database.get_cached_response st.db (env.hash url) = some (c, ts) →
        ¬ now - ts < 86400) →
     RequestHandler.get_cached_response env st url now = none) := by
  refine ⟨?_, ?_, ?_⟩
  · intro c t hf hfresh
    simp [RequestHandler.get_cached_response, hf, hfresh]
  · intro c hr
    unfold RequestHandler.get_cached_response at hr
    rcases hfile : st.fileCache.lookup (env.hash url) with _ | ⟨c', t⟩
    · rcases hdb : Database.get_cached_response st.db (env.hash url) with _ | ⟨resp, ts⟩
      · simp [hfile, hdb] at hr
      · simp only [hfile, hdb] at hr
        by_cases hfresh : now - ts < 86400
        · simp only [if_pos hfresh, Option.some.injEq] at hr
          subst hr
          exact Or.inr ⟨fun c' t h => Option.noConfusion h, ts, rfl, hfresh⟩
        · simp [if_neg hfresh] at hr
    · by_cases hfresh : now - t < 86400
      · simp only [hfile, if_pos hfresh, Option.some.injEq] at hr
        subst hr
        exact Or.inl ⟨t, rfl, hfresh⟩
      · simp only [hfile, if_neg hfresh] at hr
        rcases hdb : Database.get_cached_response st.db (env.hash url) with _ | ⟨resp, ts⟩
        · simp [hdb] at hr
        · simp only [hdb] at hr
          by_cases hfresh2 : now - ts < 86400
          · simp only [if_pos hfresh2, Option.some.injEq] at hr
            subst hr
            refine Or.inr ⟨?_, ts, rfl, hfresh2⟩
            intro c'' t'' h
            obtain ⟨rfl, rfl⟩ : c' = c'' ∧ t = t'' := by simpa using h
            exact hfresh
          · simp [if_neg hfresh2] at hr
  · intro hfile hdb
    unfold RequestHandler.get_cached_response
    rcases hf : st.fileCache.lookup (env.hash url) with _ | ⟨c', t⟩ <;>
      rcases hd : Database.get_cached_response st.db (env.hash url) with _ | ⟨resp, ts⟩
    · simp [hf, hd]
    · simp [hf, hd, hdb resp ts hd]
    · simp [hf, hd, hfile c' t hf]
    · simp [hf, hd, hfile c' t hf, hdb resp ts hd]

/-- C4 witness: a 1-second-old file entry is served; a state whose only
entries are exactly 24 hours old yields a miss. -/
theorem cache_staleness_rule_witness :
    RequestHandler.get_cached_response
      ⟨fun _ => none, fun _ => [], fun _ _ _ => none, fun u => u⟩
      ⟨[("u", "body", 99)], ⟨[], [], [], none⟩, []⟩ "u" 100 = some "body" ∧
    RequestHandler.get_cached_response
      ⟨fun _ => none, fun _ => [], fun _ _ _ => none, fun u => u⟩
      ⟨[("u", "body", 0)], ⟨[], [("u", ⟨"u", "body", 0⟩)], [], none⟩, []⟩
      "u" 86400 = none := by
  constructor
  · exact (cache_staleness_rule
      ⟨fun _ => none, fun _ => [], fun _ _ _ => none, fun u => u⟩
      ⟨[("u", "body", 99)], ⟨[], [], [], none⟩, []⟩ "u" 100).1 "body" 99
      (by decide) (by decide)
  · refine (cache_staleness_rule
      ⟨fun _ => none, fun _ => [], fun _ _ _ => none, fun u => u⟩
      ⟨[("u", "body", 0)], ⟨[], [("u", ⟨"u", "body", 0⟩)], [], none⟩, []⟩
      "u" 86400).2.2 ?_ ?_
    · intro c t h
      have : c = "body" ∧ t = 0 := by
        have h' : some ("body", (0 : Int)) = some (c, t) := by
          refine Eq.trans ?_ h
          decide
        simpa using h'.symm
      obtain ⟨rfl, rfl⟩ := this
      decide
    · intro c ts h
      have : c = "body" ∧ ts = 0 := by
        have h' : some ("body", (0 : Int)) = some (c, ts) := by
          refine Eq.trans ?_ h
          decide
        simpa using h'.symm
      obtain ⟨rfl, rfl⟩ := this
      decide

/-- C1 (amended): for a URL not in the visited set and absent from both
cache tiers, whose GET yields a *non-empty* body, the first
`get_page_content` call issues exactly one network GET and writes the body
through to both cache tiers, and a second call within the 24-hour TTL
returns the identical content from cache with no network call and no state
change.  (The non-empty hypothesis is forced: the source guards the cache
hit with Python truthiness, so a cached empty body is refetched — see the
counterexample.) -/
theorem cache_idempotence (env : Env) (st : ScraperState) (u : String)
    (now₁ now₂ : Int) (body : String)
    (hv : u ∉ st.visited)
    (hf : st.fileCache.lookup (env.hash u) = none)
    (hd : st.db.requestCache.lookup (env.hash u) = none)
    (hnet : env.net u = some body)
    (hbody : body ≠ "")
    (ht : now₂ - now₁ < 86400) :
    RequestHandler.get_page_content env st u now₁ =
      ⟨some body, RequestHandler.save_to_cache env st u body now₁, [u]⟩ ∧
    (RequestHandler.save_to_cache env st u body now₁).fileCache.lookup (env.hash u) =
      some (body, now₁) ∧
    Database.get_cached_response
      (RequestHandler.save_to_cache env st u body now₁).db (env.hash u) =
      some (body, now₁) ∧
    RequestHandler.get_page_content env
        (RequestHandler.save_to_cache env st u body now₁) u now₂ =
      ⟨some body, RequestHandler.save_to_cache env st u body now₁, []⟩ := by
  have hvc : st.visited.contains u = false := by simpa using hv
  have hcr : RequestHandler.get_cached_response env st u now₁ = none := by
    simp [RequestHandler.get_cached_response, Database.get_cached_response, hf, hd]
  refine ⟨?_, ?_, ?_, ?_⟩
  · simp [RequestHandler.get_page_content, hv, hcr, hnet]
  · simp [RequestHandler.save_to_cache, lookup_assocPut_self]
  · simp [RequestHandler.save_to_cache, Database.save_to_cache,
      Database.get_cached_response, lookup_assocPut_self]
  · have hcr2 : RequestHandler.get_cached_response env
        (RequestHandler.save_to_cache env st u body now₁) u now₂ = some body := by
      simp [RequestHandler.get_cached_response, RequestHandler.save_to_cache,
        lookup_assocPut_self, ht]
    have hv2 : u ∉ (RequestHandler.save_to_cache env st u body now₁).visited := by
      simpa [RequestHandler.save_to_cache] using hv
    simp [RequestHandler.get_page_content, hv2, hcr2, hbody]

/-- C1 witness. -/
theorem cache_idempotence_witness :
    RequestHandler.get_page_content
      ⟨fun _ => some "B", fun _ => [], fun _ _ _ => none, fun s => s⟩
      ⟨[], ⟨[], [], [], none⟩, []⟩ "u" 0 =
      ⟨some "B", RequestHandler.save_to_cache
        ⟨fun _ => some "B", fun _ => [], fun _ _ _ => none, fun s => s⟩
        ⟨[], ⟨[], [], [], none⟩, []⟩ "u" "B" 0, ["u"]⟩ ∧
    (RequestHandler.save_to_cache
      ⟨fun _ => some "B", fun _ => [], fun _ _ _ => none, fun s => s⟩
      ⟨[], ⟨[], [], [], none⟩, []⟩ "u" "B" 0).fileCache.lookup "u" =
      some ("B", 0) ∧
    Database.get_cached_response
      (RequestHandler.save_to_cache
        ⟨fun _ => some "B", fun _ => [], fun _ _ _ => none, fun s => s⟩
        ⟨[], ⟨[], [], [], none⟩, []⟩ "u" "B" 0).db "u" = some ("B", 0) ∧
    RequestHandler.get_page_content
      ⟨fun _ => some "B", fun _ => [], fun _ _ _ => none, fun s => s⟩
      (RequestHandler.save_to_cache
        ⟨fun _ => some "B", fun _ => [], fun _ _ _ => none, fun s => s⟩
        ⟨[], ⟨[], [], [], none⟩, []⟩ "u" "B" 0) "u" 10 =
      ⟨some "B", RequestHandler.save_to_cache
        ⟨fun _ => some "B", fun _ => [], fun _ _ _ => none, fun s => s⟩
        ⟨[], ⟨[], [], [], none⟩, []⟩ "u" "B" 0, []⟩ :=
  cache_idempotence
    ⟨fun _ => some "B", fun _ => [], fun _ _ _ => none, fun s => s⟩
    ⟨[], ⟨[], [], [], none⟩, []⟩ "u" 0 10 "B"
    (by decide) rfl rfl rfl (by decide) (by decide)

/-- C1 counterexample to the claim as stated: when the origin answers with
an *empty* body, the second fetch of the same URL within the TTL window
issues a second network GET (the cached empty string is falsy and treated
as a miss), so the pair of calls performs two network calls, not one. -/
theorem cache_idempotence_cex :
    (RequestHandler.get_page_content
      ⟨fun _ => some "", fun _ => [], fun _ _ _ => none, fun s => s⟩
      ⟨[], ⟨[], [], [], none⟩, []⟩ "u" 0).netLog = ["u"] ∧
    (RequestHandler.get_page_content
      ⟨fun _ => some "", fun _ => [], fun _ _ _ => none, fun s => s⟩
      (RequestHandler.get_page_content
        ⟨fun _ => some "", fun _ => [], fun _ _ _ => none, fun s => s⟩
        ⟨[], ⟨[], [], [], none⟩, []⟩ "u" 0).st "u" 10).netLog = ["u"] := by
  constructor
  · rfl
  · rfl

section UpsertLemmas

open Database

lemma upsertRow_eq_none (t : List ArticleRow) (a : ArticleInput)
    (hta : a.title = none) : upsertRow t a = none := by
  unfold upsertRow
  rw [hta]

lemma upsertRow_eq_of_title (t : List ArticleRow) (a : ArticleInput) (ta : String)
    (hta : a.title = some ta) :
    upsertRow t a =
      if (t.any fun r => r.url == a.url) = true then
        some (t.map (fun r => if (r.url == a.url) = true then mkRow ta a else r))
      else some (t ++ [mkRow ta a]) := by
  unfold upsertRow
  rw [hta]

lemma upsertRow_isSome (t : List ArticleRow) (a : ArticleInput) (ta : String)
    (hta : a.title = some ta) : ∃ t', upsertRow t a = some t' := by
  rw [upsertRow_eq_of_title t a ta hta]
  by_cases hc : (t.any fun r => r.url == a.url) = true
  · exact ⟨_, if_pos hc⟩
  · exact ⟨_, if_neg hc⟩

lemma countP_url_eq_count (t : List ArticleRow) (k : String) :
    t.countP (fun r => r.url == k) = (t.map (fun r => r.url)).count k := by
  rw [List.count_eq_countP, List.countP_map]
  rfl

lemma upsertRow_map_url_conflict (t : List ArticleRow) (a : ArticleInput) (ta : String) :
    ((t.map (fun r => if (r.url == a.url) = true then mkRow ta a else r)).map
      (fun r => r.url)) = t.map (fun r => r.url) := by
  rw [List.map_map]
  refine List.map_congr_left ?_
  intro r _
  by_cases hc : (r.url == a.url) = true
  · have hq := eq_of_beq hc
    simp [hc, mkRow, hq]
  · have hne : ¬ r.url = a.url := by simpa using hc
    simp [hne]

lemma upsertRow_nodup (t : List ArticleRow) (a : ArticleInput) (t' : List ArticleRow)
    (hu : (t.map (fun r => r.url)).Nodup) (h : upsertRow t a = some t') :
    (t'.map (fun r => r.url)).Nodup := by
  cases hta : a.title with
  | none => rw [upsertRow_eq_none t a hta] at h; cases h
  | some ta =>
    rw [upsertRow_eq_of_title t a ta hta] at h
    by_cases hc : (t.any fun r => r.url == a.url) = true
    · rw [if_pos hc, Option.some.injEq] at h
      rw [← h, upsertRow_map_url_conflict]
      exact hu
    · rw [if_neg hc, Option.some.injEq] at h
      rw [← h, List.map_append]
      have hnm : a.url ∉ t.map (fun r => r.url) := by
        intro hmem
        obtain ⟨r, hr, hre⟩ := List.mem_map.mp hmem
        exact hc (List.any_eq_true.mpr ⟨r, hr, by simp [hre]⟩)
      simp [List.nodup_append, mkRow, hu]
      intro x hx hxe
      exact hnm (List.mem_map.mpr ⟨x, hx, hxe⟩)

lemma upsertRow_any_url (t : List ArticleRow) (a : ArticleInput) (ta : String)
    (t' : List ArticleRow) (hta : a.title = some ta) (h : upsertRow t a = some t') :
    (t'.any fun r => r.url == a.url) = true := by
  rw [upsertRow_eq_of_title t a ta hta] at h
  by_cases hc : (t.any fun r => r.url == a.url) = true
  · rw [if_pos hc, Option.some.injEq] at h
    obtain ⟨r, hr, hrb⟩ := List.any_eq_true.mp hc
    refine List.any_eq_true.mpr ⟨mkRow ta a, ?_, by simp [mkRow]⟩
    rw [← h]
    exact List.mem_map.mpr ⟨r, hr, by simp [hrb]⟩
  · rw [if_neg hc, Option.some.injEq] at h
    refine List.any_eq_true.mpr ⟨mkRow ta a, ?_, by simp [mkRow]⟩
    rw [← h]
    simp

lemma countP_url_eq_one (t : List ArticleRow) (k : String)
    (hu : (t.map (fun r => r.url)).Nodup)
    (hmem : (t.any fun r => r.url == k) = true) :
    t.countP (fun r => r.url == k) = 1 := by
  obtain ⟨r, hr, hrb⟩ := List.any_eq_true.mp hmem
  have hk : k ∈ t.map (fun r => r.url) :=
    List.mem_map.mpr ⟨r, hr, eq_of_beq hrb⟩
  have hle := List.nodup_iff_count_le_one.mp hu k
  have hpos : 0 < (t.map (fun r => r.url)).count k := List.count_pos_iff.mpr hk
  rw [countP_url_eq_count]
  omega

lemma mem_conflict_update (t : List ArticleRow) (a : ArticleInput) (ta : String)
    (r : ArticleRow)
    (hr : r ∈ t.map (fun r => if (r.url == a.url) = true then mkRow ta a else r))
    (hurl : r.url = a.url) : r = mkRow ta a := by
  obtain ⟨r₀, hr₀, heq⟩ := List.mem_map.mp hr
  by_cases hc : (r₀.url == a.url) = true
  · rw [if_pos hc] at heq
    exact heq.symm
  · rw [if_neg hc] at heq
    subst heq
    exact absurd (beq_iff_eq.mpr hurl) (by simpa using hc)

lemma saveStep_none (acc : Nat × List ArticleRow) (a : ArticleInput)
    (hta : a.title = none) : saveStep acc a = acc := by
  simp [saveStep, upsertRow_eq_none acc.2 a hta]

lemma foldl_saveStep_nodup (batch : List ArticleInput) :
    ∀ (n : Nat) (t : List ArticleRow), (t.map (fun r => r.url)).Nodup →
      (((batch.foldl saveStep (n, t)).2).map (fun r => r.url)).Nodup := by
  induction batch with
  | nil => intro n t h; simpa using h
  | cons a rest ih =>
    intro n t h
    rw [List.foldl_cons]
    rcases hup : upsertRow t a with _ | t'
    · have hs : saveStep (n, t) a = (n, t) := by simp [saveStep, hup]
      rw [hs]
      exact ih n t h
    · have hs : saveStep (n, t) a = (n + 1, t') := by simp [saveStep, hup]
      rw [hs]
      exact ih (n + 1) t' (upsertRow_nodup t a t' h hup)

lemma foldl_saveStep_count (batch : List ArticleInput) :
    ∀ (n : Nat) (t : List ArticleRow),
      (batch.foldl saveStep (n, t)).1 =
        n + batch.countP (fun a => a.title.isSome) := by
  induction batch with
  | nil => intro n t; simp
  | cons a rest ih =>
    intro n t
    rw [List.foldl_cons, List.countP_cons]
    cases hta : a.title with
    | none =>
      rw [saveStep_none (n, t) a hta]
      simp [ih n t, hta]
    | some ta =>
      obtain ⟨t', hup⟩ := upsertRow_isSome t a ta hta
      have hs : saveStep (n, t) a = (n + 1, t') := by simp [saveStep, hup]
      rw [hs, ih (n + 1) t']
      simp [hta]
      omega

end UpsertLemmas

/-- C3: `Database.save_articles` keeps at most one row per url (uniqueness
of the url column is preserved by every batch); the returned count is
exactly the number of records actually inserted or updated (the records
whose title bound successfully); a record hitting the per-row failure path
is skipped without affecting the rest of the batch or the result; and
saving two records with the same url leaves exactly one row for that url,
carrying the latest record's field values. -/
theorem upsert_invariant (db : DbState) (batch : List ArticleInput)
    (hu : (db.articles.map (fun r => r.url)).Nodup) :
    (((Database.save_articles db batch).2.articles).map (fun r => r.url)).Nodup ∧
    (Database.save_articles db batch).1 =
      batch.countP (fun a => a.title.isSome) ∧
    (∀ l₁ (a : ArticleInput) l₂, a.title = none →
      Database.save_articles db (l₁ ++ a :: l₂) =
        Database.save_articles db (l₁ ++ l₂)) ∧
    (∀ (a₁ a₂ : ArticleInput) (t₁ t₂ : String),
      a₁.title = some t₁ → a₂.title = some t₂ → a₁.url = a₂.url →
      ((Database.save_articles db [a₁, a₂]).2.articles).countP
          (fun r => r.url == a₂.url) = 1 ∧
      (∀ r ∈ (Database.save_articles db [a₁, a₂]).2.articles,
        r.url = a₂.url → r = Database.mkRow t₂ a₂)) := by
  refine ⟨?_, ?_, ?_, ?_⟩
  · simpa [Database.save_articles] using foldl_saveStep_nodup batch 0 db.articles hu
  · simpa [Database.save_articles] using foldl_saveStep_count batch 0 db.articles
  · intro l₁ a l₂ hta
    unfold Database.save_articles
    rw [List.foldl_append, List.foldl_append, List.foldl_cons,
      saveStep_none _ a hta]
  · intro a₁ a₂ t₁ t₂ h1 h2 hurl
    obtain ⟨T₁, hup1⟩ := upsertRow_isSome db.articles a₁ t₁ h1
    have hT₁u : (T₁.map (fun r => r.url)).Nodup :=
      upsertRow_nodup db.articles a₁ T₁ hu hup1
    have hT₁any : (T₁.any fun r => r.url == a₂.url) = true := by
      have h := upsertRow_any_url db.articles a₁ t₁ T₁ h1 hup1
      rwa [hurl] at h
    have hup2 : Database.upsertRow T₁ a₂ =
        some (T₁.map (fun r =>
          if (r.url == a₂.url) = true then Database.mkRow t₂ a₂ else r)) := by
      rw [upsertRow_eq_of_title T₁ a₂ t₂ h2, if_pos hT₁any]
    have hfinal : (Database.save_articles db [a₁, a₂]).2.articles =
        T₁.map (fun r =>
          if (r.url == a₂.url) = true then Database.mkRow t₂ a₂ else r) := by
      simp [Database.save_articles, Database.saveStep, hup1, hup2]
    constructor
    · rw [hfinal, countP_url_eq_count, upsertRow_map_url_conflict T₁ a₂ t₂,
        ← countP_url_eq_count]
      exact countP_url_eq_one T₁ a₂.url hT₁u hT₁any
    · intro r hr hru
      rw [hfinal] at hr
      exact mem_conflict_update T₁ a₂ t₂ r hr hru

/-- C3 witness: a two-record batch with the same url on an empty table
yields count 2 (both rows affected: one insert, one update) and exactly one
row for that url, holding the second record's fields. -/
theorem upsert_invariant_witness :
    (Database.save_articles ⟨[], [], ["articles", "request_cache"], none⟩
        [⟨some "T1", "Ca", "u", "d", "s", "sd", none⟩,
         ⟨some "T2", "Cb", "u", "d", "s", "sd", some "k"⟩]).1 = 2 ∧
    ((Database.save_articles ⟨[], [], ["articles", "request_cache"], none⟩
        [⟨some "T1", "Ca", "u", "d", "s", "sd", none⟩,
         ⟨some "T2", "Cb", "u", "d", "s", "sd", some "k"⟩]).2.articles).countP
        (fun r => r.url == "u") = 1 := by
  have h := upsert_invariant ⟨[], [], ["articles", "request_cache"], none⟩
    [⟨some "T1", "Ca", "u", "d", "s", "sd", none⟩,
     ⟨some "T2", "Cb", "u", "d", "s", "sd", some "k"⟩] (by simp)
  refine ⟨h.2.1.trans (by decide), ?_⟩
  exact (h.2.2.2 ⟨some "T1", "Ca", "u", "d", "s", "sd", none⟩
    ⟨some "T2", "Cb", "u", "d", "s", "sd", some "k"⟩ "T1" "T2" rfl rfl rfl).1

section CrawlLemmas

open AINewsScraper

lemma get_page_content_visited (env : Env) (st : ScraperState) (url : String)
    (now : Int) (h : url ∈ st.visited) :
    RequestHandler.get_page_content env st url now = ⟨none, st, []⟩ := by
  have hvc : st.visited.contains url = true := by simpa using h
  simp [RequestHandler.get_page_content, hvc, h]

lemma get_page_content_visited_eq (env : Env) (st : ScraperState) (url : String)
    (now : Int) :
    (RequestHandler.get_page_content env st url now).st.visited = st.visited := by
  unfold RequestHandler.get_page_content
  by_cases hvc : st.visited.contains url = true
  · simp only [hvc, if_pos]
  · simp only [hvc, Bool.false_eq_true, if_false]
    rcases hc : RequestHandler.get_cached_response env st url now with _ | c
    · rcases hn : env.net url with _ | body
      · simp
      · simp [RequestHandler.save_to_cache]
    · by_cases hcc : c = ""
      · subst hcc
        simp only [ne_eq, not_true_eq_false, if_false]
        rcases hn : env.net url with _ | body
        · simp
        · simp [RequestHandler.save_to_cache]
      · simp [hcc]

lemma get_page_content_netLog_cases (env : Env) (st : ScraperState) (url : String)
    (now : Int) :
    (RequestHandler.get_page_content env st url now).netLog = [] ∨
    (RequestHandler.get_page_content env st url now).netLog = [url] := by
  unfold RequestHandler.get_page_content
  by_cases hvc : st.visited.contains url = true
  · simp only [hvc, if_pos]
    exact Or.inl trivial
  · simp only [hvc, Bool.false_eq_true, if_false]
    rcases hc : RequestHandler.get_cached_response env st url now with _ | c
    · rcases hn : env.net url with _ | body <;> simp
    · by_cases hcc : c = ""
      · subst hcc
        simp only [ne_eq, not_true_eq_false, if_false]
        rcases hn : env.net url with _ | body <;> simp
      · simp [hcc]

lemma get_page_content_netLog_mem (env : Env) (st : ScraperState) (url : String)
    (now : Int) (v : String)
    (hv : v ∈ (RequestHandler.get_page_content env st url now).netLog) :
    v = url ∧ url ∉ st.visited := by
  rcases get_page_content_netLog_cases env st url now with h | h
  · rw [h] at hv
    cases hv
  · rw [h] at hv
    have hvu : v = url := by simpa using hv
    refine ⟨hvu, ?_⟩
    intro hmem
    rw [get_page_content_visited env st url now hmem] at h
    cases h

lemma sac_visited_mono (env : Env) (st : ScraperState) (url : String)
    (ft : Option String) (now : Int) :
    st.visited ⊆ (scrape_article_content env st url ft now).2.1.visited := by
  have hveq := get_page_content_visited_eq env st url now
  rcases hr : (RequestHandler.get_page_content env st url now).result with _ | html
  · simp only [scrape_article_content, hr]
    rw [hveq]
    exact fun x hx => hx
  · by_cases hh : html = ""
    · subst hh
      simp only [scrape_article_content, hr, if_pos]
      rw [hveq]
      exact fun x hx => hx
    · simp only [scrape_article_content, hr, if_neg hh]
      intro x hx
      exact List.mem_cons_of_mem url (hveq ▸ hx)

lemma sac_netLog_mem (env : Env) (st : ScraperState) (url : String)
    (ft : Option String) (now : Int) (v : String)
    (hv : v ∈ (scrape_article_content env st url ft now).2.2) :
    v = url ∧ url ∉ st.visited := by
  refine get_page_content_netLog_mem env st url now v ?_
  rcases hr : (RequestHandler.get_page_content env st url now).result with _ | html
  · simpa only [scrape_article_content, hr] using hv
  · by_cases hh : html = ""
    · subst hh
      simpa only [scrape_article_content, hr, if_pos] using hv
    · simpa only [scrape_article_content, hr, if_neg hh] using hv

lemma processLinks_visited_mono (env : Env) (now : Int) (cap : Nat) :
    ∀ (links : List Link) (st : ScraperState) (acc : List ArticleInput) (p : Nat),
      st.visited ⊆ (processLinks env now cap links st acc p).st.visited := by
  intro links
  induction links with
  | nil =>
    intro st acc p
    exact fun x hx => hx
  | cons l rest ih =>
    intro st acc p
    by_cases hcap : cap ≤ p
    · simp only [processLinks]
      rw [if_pos hcap]
      exact fun x hx => hx
    · by_cases hvis : st.visited.contains l.url = true
      · simp only [processLinks]
        rw [if_neg hcap, if_pos hvis]
        exact ih st acc p
      · rcases hsac : scrape_article_content env st l.url (some l.title) now
          with ⟨d, st', log⟩
        have hmono : st.visited ⊆ st'.visited := by
          have hm := sac_visited_mono env st l.url (some l.title) now
          rw [hsac] at hm
          exact hm
        simp only [processLinks]
        rw [if_neg hcap, if_neg hvis]
        simp only [hsac]
        cases d with
        | none => exact hmono.trans (ih st' acc p)
        | some dd => exact hmono.trans (ih st' (acc ++ [dd]) (p + 1))

lemma processLinks_netLog_mem (env : Env) (now : Int) (cap : Nat) :
    ∀ (links : List Link) (st : ScraperState) (acc : List ArticleInput) (p : Nat)
      (v : String),
      v ∈ (processLinks env now cap links st acc p).netLog → v ∉ st.visited := by
  intro links
  induction links with
  | nil =>
    intro st acc p v hv hmem
    simp [processLinks] at hv
  | cons l rest ih =>
    intro st acc p v hv hmem
    by_cases hcap : cap ≤ p
    · simp only [processLinks] at hv
      rw [if_pos hcap] at hv
      simp at hv
    · by_cases hvis : st.visited.contains l.url = true
      · simp only [processLinks] at hv
        rw [if_neg hcap, if_pos hvis] at hv
        exact ih st acc p v hv hmem
      · rcases hsac : scrape_article_content env st l.url (some l.title) now
          with ⟨d, st', log⟩
        have hmono : st.visited ⊆ st'.visited := by
          have hm := sac_visited_mono env st l.url (some l.title) now
          rw [hsac] at hm
          exact hm
        have hlog : ∀ w, w ∈ log → w = l.url ∧ l.url ∉ st.visited := by
          intro w hw
          exact sac_netLog_mem env st l.url (some l.title) now w
            (by rw [hsac]; exact hw)
        simp only [processLinks] at hv
        rw [if_neg hcap, if_neg hvis] at hv
        simp only [hsac] at hv
        cases d with
        | none =>
          rcases List.mem_append.mp hv with h1 | h2
          · obtain ⟨rfl, hnv⟩ := hlog v h1
            exact hnv hmem
          · exact ih st' acc p v h2 (hmono hmem)
        | some dd =>
          rcases List.mem_append.mp hv with h1 | h2
          · obtain ⟨rfl, hnv⟩ := hlog v h1
            exact hnv hmem
          · exact ih st' (acc ++ [dd]) (p + 1) v h2 (hmono hmem)

lemma crawlPages_visited_mono (env : Env) (term : String) (now : Int) (cap : Nat) :
    ∀ (pl : List Nat) (st : ScraperState) (acc : List ArticleInput),
      st.visited ⊆ (crawlPages env term now cap pl st acc).st.visited := by
  intro pl
  induction pl with
  | nil =>
    intro st acc
    exact fun x hx => hx
  | cons p rest ih =>
    intro st acc
    have hveq := get_page_content_visited_eq env st (listingUrl term p) now
    have hsub : st.visited ⊆
        (RequestHandler.get_page_content env st (listingUrl term p) now).st.visited := by
      rw [hveq]
      exact fun x hx => hx
    rcases hr : (RequestHandler.get_page_content env st (listingUrl term p) now).result
      with _ | html
    · simp only [crawlPages, hr]
      exact hsub.trans (ih _ acc)
    · by_cases hh : html = ""
      · subst hh
        simp only [crawlPages, hr, if_pos]
        exact hsub.trans (ih _ acc)
      · rcases hl : env.extractLinks html with _ | ⟨l, ls⟩
        · simp only [crawlPages, hr, if_neg hh, hl]
          exact hsub.trans (ih _ acc)
        · simp only [crawlPages, hr, if_neg hh, hl]
          have hin := processLinks_visited_mono env now cap (l :: ls)
            (RequestHandler.get_page_content env st (listingUrl term p) now).st acc 0
          by_cases hz : (processLinks env now cap (l :: ls)
              (RequestHandler.get_page_content env st (listingUrl term p) now).st
              acc 0).processed = 0
          · rw [if_pos hz]
            exact hsub.trans hin
          · rw [if_neg hz]
            exact (hsub.trans hin).trans (ih _ _)

lemma crawlPages_netLog_mem (env : Env) (term : String) (now : Int) (cap : Nat) :
    ∀ (pl : List Nat) (st : ScraperState) (acc : List ArticleInput) (v : String),
      v ∈ (crawlPages env term now cap pl st acc).netLog → v ∉ st.visited := by
  intro pl
  induction pl with
  | nil =>
    intro st acc v hv hmem
    simp [crawlPages] at hv
  | cons p rest ih =>
    intro st acc v hv hmem
    have hveq := get_page_content_visited_eq env st (listingUrl term p) now
    have hfmem : v ∈ (RequestHandler.get_page_content env st
        (listingUrl term p) now).netLog → False := by
      intro hgl
      obtain ⟨rfl, hnv⟩ := get_page_content_netLog_mem env st (listingUrl term p) now v hgl
      exact hnv hmem
    have hfstmem : v ∈ (RequestHandler.get_page_content env st
        (listingUrl term p) now).st.visited := by
      rw [hveq]
      exact hmem
    rcases hr : (RequestHandler.get_page_content env st (listingUrl term p) now).result
      with _ | html
    · simp only [crawlPages, hr] at hv
      rcases List.mem_append.mp hv with h1 | h2
      · exact hfmem h1
      · exact ih _ acc v h2 hfstmem
    · by_cases hh : html = ""
      · subst hh
        simp only [crawlPages, hr, if_pos] at hv
        rcases List.mem_append.mp hv with h1 | h2
        · exact hfmem h1
        · exact ih _ acc v h2 hfstmem
      · rcases hl : env.extractLinks html with _ | ⟨l, ls⟩
        · simp only [crawlPages, hr, if_neg hh, hl] at hv
          rcases List.mem_append.mp hv with h1 | h2
          · exact hfmem h1
          · exact ih _ acc v h2 hfstmem
        · simp only [crawlPages, hr, if_neg hh, hl] at hv
          have hinmem := processLinks_netLog_mem env now cap (l :: ls)
            (RequestHandler.get_page_content env st (listingUrl term p) now).st acc 0 v
          have hinmono := processLinks_visited_mono env now cap (l :: ls)
            (RequestHandler.get_page_content env st (listingUrl term p) now).st acc 0
          by_cases hz : (processLinks env now cap (l :: ls)
              (RequestHandler.get_page_content env st (listingUrl term p) now).st
              acc 0).processed = 0
          · rw [if_pos hz] at hv
            rcases List.mem_append.mp hv with h1 | h2
            · exact hfmem h1
            · exact hinmem h2 hfstmem
          · rw [if_neg hz] at hv
            rcases List.mem_append.mp hv with h1 | h2
            · rcases List.mem_append.mp h1 with h3 | h4
              · exact hfmem h3
              · exact hinmem h4 hfstmem
            · exact ih _ _ v h2 (hinmono hfstmem)

end CrawlLemmas

/-- C5: for any URL in the visited set, `get_page_content` returns `None`
without issuing a network request; and during a whole `crawlPages` run, no
URL that is in the visited set when the run starts ever appears in the
network log — keys visited at the start of article processing are never
fetched again in that run. -/
theorem dedup_invariant (env : Env) (term : String) (now : Int) (cap : Nat)
    (pl : List Nat) (st : ScraperState) (acc : List ArticleInput) (u : String)
    (h : u ∈ st.visited) :
    RequestHandler.get_page_content env st u now = ⟨none, st, []⟩ ∧
    u ∉ (AINewsScraper.crawlPages env term now cap pl st acc).netLog := by
  refine ⟨get_page_content_visited env st u now h, ?_⟩
  intro hmem
  exact crawlPages_netLog_mem env term now cap pl st acc u hmem h

/-- C5 witness. -/
theorem dedup_invariant_witness :
    RequestHandler.get_page_content
      ⟨fun _ => some "H", fun _ => [⟨"a1", "t"⟩], fun _ _ _ => none, fun s => s⟩
      ⟨[], ⟨[], [], [], none⟩, ["a1"]⟩ "a1" 0 =
      ⟨none, ⟨[], ⟨[], [], [], none⟩, ["a1"]⟩, []⟩ ∧
    "a1" ∉ (AINewsScraper.crawlPages
      ⟨fun _ => some "H", fun _ => [⟨"a1", "t"⟩], fun _ _ _ => none, fun s => s⟩
      "AI" 0 10 [1, 2] ⟨[], ⟨[], [], [], none⟩, ["a1"]⟩ []).netLog :=
  dedup_invariant
    ⟨fun _ => some "H", fun _ => [⟨"a1", "t"⟩], fun _ _ _ => none, fun s => s⟩
    "AI" 0 10 [1, 2] ⟨[], ⟨[], [], [], none⟩, ["a1"]⟩ [] "a1" (by decide)

/-- C6: when a listing page's fetch succeeded (truthy body), the Extractor
discovered a non-empty link list, and the page's `processed_count` ended at
zero (every link already visited, or fetch/extraction failed for each),
the crawl `break`s: the page list ends at that page and no later listing
page is attempted. -/
theorem early_stop (env : Env) (term : String) (now : Int) (cap : Nat)
    (p : Nat) (rest : List Nat) (st : ScraperState) (acc : List ArticleInput)
    (html : String) (l : Link) (ls : List Link)
    (hres : (RequestHandler.get_page_content env st
      (AINewsScraper.listingUrl term p) now).result = some html)
    (hhtml : html ≠ "")
    (hlinks : env.extractLinks html = l :: ls)
    (hproc : (AINewsScraper.processLinks env now cap (l :: ls)
        (RequestHandler.get_page_content env st
          (AINewsScraper.listingUrl term p) now).st acc 0).processed = 0) :
    (AINewsScraper.crawlPages env term now cap (p :: rest) st acc).attempted = [p] := by
  simp only [AINewsScraper.crawlPages, hres]
  rw [if_neg hhtml]
  simp only [hlinks]
  rw [if_pos hproc]

/-- C6 witness: page 2 carries one link that is already visited, so zero
new articles are processed there and page 3 is never attempted. -/
theorem early_stop_witness :
    (RequestHandler.get_page_content
      ⟨fun _ => some "H", fun _ => [⟨"a1", "t"⟩], fun _ _ _ => none, fun s => s⟩
      ⟨[], ⟨[], [], [], none⟩, ["a1"]⟩ (AINewsScraper.listingUrl "AI" 2) 0).result =
      some "H" ∧
    (AINewsScraper.crawlPages
      ⟨fun _ => some "H", fun _ => [⟨"a1", "t"⟩], fun _ _ _ => none, fun s => s⟩
      "AI" 0 10 [2, 3] ⟨[], ⟨[], [], [], none⟩, ["a1"]⟩ []).attempted = [2] := by
  refine ⟨by decide, ?_⟩
  exact early_stop
    ⟨fun _ => some "H", fun _ => [⟨"a1", "t"⟩], fun _ _ _ => none, fun s => s⟩
    "AI" 0 10 2 [3] ⟨[], ⟨[], [], [], none⟩, ["a1"]⟩ [] "H" ⟨"a1", "t"⟩ []
    (by decide) (by decide) rfl (by decide)

/-- C7 (amended): when the Extractor discovers zero links on a fetched
listing page, the source records a warning and `continue`s: the page loop
moves straight on to the remaining pages, *bypassing* the no-progress
check, so the crawl does not stop at that page. -/
theorem zero_links_skips_page (env : Env) (term : String) (now : Int) (cap : Nat)
    (p : Nat) (rest : List Nat) (st : ScraperState) (acc : List ArticleInput)
    (html : String)
    (hres : (RequestHandler.get_page_content env st
      (AINewsScraper.listingUrl term p) now).result = some html)
    (hhtml : html ≠ "")
    (hlinks : env.extractLinks html = []) :
    AINewsScraper.crawlPages env term now cap (p :: rest) st acc =
      ⟨(AINewsScraper.crawlPages env term now cap rest
          (RequestHandler.get_page_content env st
            (AINewsScraper.listingUrl term p) now).st acc).st,
       (AINewsScraper.crawlPages env term now cap rest
          (RequestHandler.get_page_content env st
            (AINewsScraper.listingUrl term p) now).st acc).acc,
       (RequestHandler.get_page_content env st
          (AINewsScraper.listingUrl term p) now).netLog ++
         (AINewsScraper.crawlPages env term now cap rest
            (RequestHandler.get_page_content env st
              (AINewsScraper.listingUrl term p) now).st acc).netLog,
       p :: (AINewsScraper.crawlPages env term now cap rest
          (RequestHandler.get_page_content env st
            (AINewsScraper.listingUrl term p) now).st acc).attempted⟩ := by
  simp only [AINewsScraper.crawlPages, hres]
  rw [if_neg hhtml]
  simp only [hlinks]

/-- C7 witness for the amended claim. -/
theorem zero_links_skips_page_witness :
    AINewsScraper.crawlPages
      ⟨fun _ => some "H", fun _ => [], fun _ _ _ => none, fun s => s⟩
      "AI" 0 10 [1, 2] ⟨[], ⟨[], [], [], none⟩, []⟩ [] =
      ⟨(AINewsScraper.crawlPages
          ⟨fun _ => some "H", fun _ => [], fun _ _ _ => none, fun s => s⟩
          "AI" 0 10 [2]
          (RequestHandler.get_page_content
            ⟨fun _ => some "H", fun _ => [], fun _ _ _ => none, fun s => s⟩
            ⟨[], ⟨[], [], [], none⟩, []⟩ (AINewsScraper.listingUrl "AI" 1) 0).st []).st,
       (AINewsScraper.crawlPages
          ⟨fun _ => some "H", fun _ => [], fun _ _ _ => none, fun s => s⟩
          "AI" 0 10 [2]
          (RequestHandler.get_page_content
            ⟨fun _ => some "H", fun _ => [], fun _ _ _ => none, fun s => s⟩
            ⟨[], ⟨[], [], [], none⟩, []⟩ (AINewsScraper.listingUrl "AI" 1) 0).st []).acc,
       (RequestHandler.get_page_content
          ⟨fun _ => some "H", fun _ => [], fun _ _ _ => none, fun s => s⟩
          ⟨[], ⟨[], [], [], none⟩, []⟩ (AINewsScraper.listingUrl "AI" 1) 0).netLog ++
         (AINewsScraper.crawlPages
            ⟨fun _ => some "H", fun _ => [], fun _ _ _ => none, fun s => s⟩
            "AI" 0 10 [2]
            (RequestHandler.get_page_content
              ⟨fun _ => some "H", fun _ => [], fun _ _ _ => none, fun s => s⟩
              ⟨[], ⟨[], [], [], none⟩, []⟩ (AINewsScraper.listingUrl "AI" 1) 0).st []).netLog,
       1 :: (AINewsScraper.crawlPages
          ⟨fun _ => some "H", fun _ => [], fun _ _ _ => none, fun s => s⟩
          "AI" 0 10 [2]
          (RequestHandler.get_page_content
            ⟨fun _ => some "H", fun _ => [], fun _ _ _ => none, fun s => s⟩
            ⟨[], ⟨[], [], [], none⟩, []⟩ (AINewsScraper.listingUrl "AI" 1) 0).st []).attempted⟩ :=
  zero_links_skips_page
    ⟨fun _ => some "H", fun _ => [], fun _ _ _ => none, fun s => s⟩
    "AI" 0 10 1 [2] ⟨[], ⟨[], [], [], none⟩, []⟩ [] "H"
    (by decide) (by decide) rfl

/-- C7 counterexample to the claim as stated: a run whose page 1 is fetched
successfully but yields zero links does *not* stop at page 1 (as applying
the no-progress check there would force); page 2 is still attempted. -/
theorem zero_links_cex :
    (RequestHandler.get_page_content
      ⟨fun _ => some "H", fun _ => [], fun _ _ _ => none, fun s => s⟩
      ⟨[], ⟨[], [], [], none⟩, []⟩ (AINewsScraper.listingUrl "AI" 1) 0).result =
      some "H" ∧
    (Env.extractLinks
      ⟨fun _ => some "H", fun _ => [], fun _ _ _ => none, fun s => s⟩ "H") = [] ∧
    (AINewsScraper.crawlPages
      ⟨fun _ => some "H", fun _ => [], fun _ _ _ => none, fun s => s⟩
      "AI" 0 10 [1, 2] ⟨[], ⟨[], [], [], none⟩, []⟩ []).attempted = [1, 2] := by
  refine ⟨by decide, rfl, by decide⟩
